import Mathlib

/-!
Verification of the pact mock-server / verifier core against its
natural-language specification.  The Rust sources are shallowly embedded:
pure functions become Lean functions, fallible code returns `Except`,
machine integers become `Nat`, byte buffers become `List Nat`, and the
hash maps of the Rust code become association lists whose observable
interface is lookup.  External crates (hyper, regex, serde) are embedded
by their observable behaviour; functions of the repository that are not
under `src/` are modelled from the spec and say so in their doc comment.
-/

namespace Pact

/-- Body of a request or response, from `pact_matching::models::OptionalBody`.
Modelled from the spec: the `pact_matching` models module is not under
`src/`; spec section 3 gives the four variants Missing, Empty, Null and
Present(bytes). Bytes are modelled as a list of naturals. -/
inductive OptionalBody where
  | Missing
  | Empty
  | Null
  | Present (bytes : List Nat)
deriving DecidableEq

/-- An HTTP request in the internal model, from
`pact_matching::models::Request` (matching rules and generators carry no
information used by the claims and are omitted). -/
structure Request where
  method : String
  path : String
  query : Option (List (String × List String))
  headers : Option (List (String × String))
  body : OptionalBody
deriving DecidableEq

/-- An HTTP response in the internal model, from
`pact_matching::models::Response`. -/
structure Response where
  status : Nat
  headers : Option (List (String × String))
  body : OptionalBody
deriving DecidableEq

/-- One expected request/response pair, from
`pact_matching::models::Interaction`. -/
structure Interaction where
  description : String
  provider_state : Option String
  request : Request
  response : Response
deriving DecidableEq

/-- A mismatch produced by the matching engine, from
`pact_matching::Mismatch`. Modelled from the spec: `pact_matching` is not
under `src/`; spec section 4.2 lists the seven variants, each carrying
expected/actual values and a message (payloads here are the carried
strings; only the variant tag is observed by the dispatcher). -/
inductive Mismatch where
  | MethodMismatch (expected actual : String)
  | PathMismatch (expected actual : String)
  | QueryMismatch (message : String)
  | HeaderMismatch (key message : String)
  | BodyTypeMismatch (expected actual : String)
  | BodyMismatch (path message : String)
  | StatusMismatch (expected actual : Nat)
deriving DecidableEq

/-- `Mismatch::mismatch_type`, the string tag of the variant. -/
def Mismatch.mismatch_type : Mismatch → String
  | .MethodMismatch _ _ => "MethodMismatch"
  | .PathMismatch _ _ => "PathMismatch"
  | .QueryMismatch _ => "QueryMismatch"
  | .HeaderMismatch _ _ => "HeaderMismatch"
  | .BodyTypeMismatch _ _ => "BodyTypeMismatch"
  | .BodyMismatch _ _ => "BodyMismatch"
  | .StatusMismatch _ _ => "StatusMismatch"

/-- Result of dispatching one actual request, from the mock-server crate
root `MatchResult`. Modelled from the spec: the crate root is not under
`src/`; the three variants and their payloads are those used by
`match_request` in `server.rs` and by spec section 4.2. -/
inductive MatchResult where
  | RequestMatch (interaction : Interaction)
  | RequestMismatch (interaction : Interaction) (mismatches : List Mismatch)
  | RequestNotFound (request : Request)
deriving DecidableEq

/-- `itertools::unique`: the distinct elements of a list, first
occurrences kept in order. -/
def uniqueList {α : Type} [DecidableEq α] : List α → List α
  | [] => []
  | x :: xs => x :: uniqueList (xs.filter (fun y => decide (y ≠ x)))
termination_by l => l.length
decreasing_by
  exact Nat.lt_succ_of_le (List.length_filter_le _ _)

/-- The sort key of `match_request` in `server.rs`: the number of distinct
`mismatch_type` values of a candidate's mismatch list
(`.map(mismatch_type).unique().count()`). -/
def distinct_mismatch_kinds (mismatches : List Mismatch) : Nat :=
  (uniqueList (mismatches.map Mismatch.mismatch_type)).length

/-- `method_or_path_mismatch` from `server.rs`: does the list hold a
mismatch whose type string is MethodMismatch or PathMismatch. -/
def method_or_path_mismatch (mismatches : List Mismatch) : Bool :=
  (mismatches.map Mismatch.mismatch_type).any
    (fun t => t == "MethodMismatch" || t == "PathMismatch")

/-- One insertion step of a stable insertion sort by a natural key:
the inserted element goes in front of the first element of
greater-or-equal key. -/
def orderedInsertBy {α : Type} (key : α → Nat) (a : α) : List α → List α
  | [] => [a]
  | b :: l => if key a ≤ key b then a :: b :: l else b :: orderedInsertBy key a l

/-- Stable sort by a natural key, embedding `itertools::sorted_by` (a
stable sort) as used in `match_request`. -/
def insertionSortBy {α : Type} (key : α → Nat) : List α → List α
  | [] => []
  | a :: l => orderedInsertBy key a (insertionSortBy key l)

/-- `match_request` from `server.rs`: score every interaction by the
number of distinct mismatch kinds its expected request produces against
the actual one, stable-sort ascending, and decide from the top candidate.
The matcher `pact_matching::match_request` lives outside `src/` and is a
parameter. -/
def match_request (match_rq : Request → Request → List Mismatch)
    (req : Request) (interactions : List Interaction) : MatchResult :=
  let match_results := insertionSortBy (fun p => distinct_mismatch_kinds p.2)
    (interactions.map (fun i => (i, match_rq i.request req)))
  match match_results.head? with
  | some res =>
      if res.2.isEmpty then MatchResult.RequestMatch res.1
      else if method_or_path_mismatch res.2 then MatchResult.RequestNotFound req
      else MatchResult.RequestMismatch res.1 res.2
  | none => MatchResult.RequestNotFound req

/-- The variant tag of a mismatch, used by the specification-side
dispatcher to speak about mismatch kinds without going through the
string names. -/
inductive MismatchKind where
  | MethodKind
  | PathKind
  | QueryKind
  | HeaderKind
  | BodyTypeKind
  | BodyKind
  | StatusKind
deriving DecidableEq

/-- The kind (variant tag) of a mismatch. -/
def Mismatch.kind : Mismatch → MismatchKind
  | .MethodMismatch _ _ => MismatchKind.MethodKind
  | .PathMismatch _ _ => MismatchKind.PathKind
  | .QueryMismatch _ => MismatchKind.QueryKind
  | .HeaderMismatch _ _ => MismatchKind.HeaderKind
  | .BodyTypeMismatch _ _ => MismatchKind.BodyTypeKind
  | .BodyMismatch _ _ => MismatchKind.BodyKind
  | .StatusMismatch _ _ => MismatchKind.StatusKind

/-- The string name of a mismatch kind. -/
def MismatchKind.kindName : MismatchKind → String
  | .MethodKind => "MethodMismatch"
  | .PathKind => "PathMismatch"
  | .QueryKind => "QueryMismatch"
  | .HeaderKind => "HeaderMismatch"
  | .BodyTypeKind => "BodyTypeMismatch"
  | .BodyKind => "BodyMismatch"
  | .StatusKind => "StatusMismatch"

/-- The first element of a list attaining the minimal key: candidates are
compared by key ascending and ties keep the earlier element. This is the
claim's reading of the dispatcher ranking ("ordered by the number of
distinct mismatch kinds ascending with ties broken by declaration
order"). -/
def firstMinBy {α : Type} (key : α → Nat) : List α → Option α
  | [] => none
  | a :: l =>
      match firstMinBy key l with
      | none => some a
      | some b => if key a ≤ key b then some a else some b

/-- The dispatcher as the claim words it: evaluate every interaction
against the actual request, take the candidate with the fewest distinct
mismatch kinds (earliest on ties), return Match when its mismatch list is
empty, NotFound when the list holds a method or path mismatch or there is
no interaction, and PartialMismatch otherwise. -/
def dispatch_claimed (match_rq : Request → Request → List Mismatch)
    (req : Request) (interactions : List Interaction) : MatchResult :=
  match firstMinBy (fun p => (uniqueList (p.2.map Mismatch.kind)).length)
      (interactions.map (fun i => (i, match_rq i.request req))) with
  | none => MatchResult.RequestNotFound req
  | some res =>
      if res.2 = [] then MatchResult.RequestMatch res.1
      else if res.2.any (fun m =>
          decide (m.kind = MismatchKind.MethodKind ∨ m.kind = MismatchKind.PathKind)) then
        MatchResult.RequestNotFound req
      else MatchResult.RequestMismatch res.1 res.2

/-- `extract_body` from `server.rs`: a non-empty chunk becomes a Present
body with the received bytes, an empty chunk becomes Empty. -/
def extract_body (chunk : List Nat) : OptionalBody :=
  if chunk.length > 0 then OptionalBody.Present chunk else OptionalBody.Empty

/-- The error type `MockRequestError` of `server.rs`. -/
inductive MockRequestError where
  | InvalidHeaderEncoding
  | RequestBodyError
  | ResponseHeaderEncodingError
  | ResponseBodyError
deriving DecidableEq

/-- A built hyper response, observed through its status, its header map
(an association list in insertion order) and its body bytes. -/
structure HyperResponse where
  status : Nat
  headers : List (String × String)
  body : List Nat
deriving DecidableEq

/-- The bytes of a string body (`hyper::Body::from` on a string literal),
one natural per character code point; every literal involved is ASCII, so
this is its byte sequence. -/
def strBytes (s : String) : List Nat := s.data.map Char.toNat

/-- `hyper::HeaderMap::insert`: any previous entries under the name are
dropped and the single new entry stored. -/
def insertHeader (hs : List (String × String)) (k v : String) : List (String × String) :=
  (hs.filter (fun p => !(p.1 == k))) ++ [(k, v)]

/-- The body of the `for` loop of `set_hyper_headers` in `server.rs`,
walked over the configured header entries. `parseName` embeds
`HeaderName::from_bytes` and `parseValue` embeds `str::parse::<HeaderValue>`
(hyper internals, given as parameters): `none` is a parse failure, which
the source maps to `ResponseHeaderEncodingError`. -/
def set_headers_loop (parseName parseValue : String → Option String) :
    List (String × String) → List (String × String) →
    Except MockRequestError (List (String × String))
  | [], hyper_headers => Except.ok hyper_headers
  | (k, v) :: rest, hyper_headers =>
      match parseName k with
      | none => Except.error MockRequestError.ResponseHeaderEncodingError
      | some k2 =>
          match parseValue v with
          | none => Except.error MockRequestError.ResponseHeaderEncodingError
          | some v2 => set_headers_loop parseName parseValue rest (insertHeader hyper_headers k2 v2)

/-- `set_hyper_headers` from `server.rs`: insert every configured header
into the hyper header map, failing on an invalid name or value; `None`
configured headers insert nothing. -/
def set_hyper_headers (parseName parseValue : String → Option String)
    (headers : Option (List (String × String)))
    (hyper_headers : List (String × String)) :
    Except MockRequestError (List (String × String)) :=
  match headers with
  | some header_map => set_headers_loop parseName parseValue header_map hyper_headers
  | none => Except.ok hyper_headers

/-- Modelled from the spec: `pact_matching::generate_response` is not
under `src/`; spec section 4.3 step 3 builds the HTTP response directly
from the interaction's configured `Response`. -/
def generate_response (response : Response) : Response := response

/-- `match_result_to_hyper_response` from `server.rs`. On a match the
response is built from the interaction's response: its status, the header
`access-control-allow-origin: *` first, then the configured headers, and
the configured body bytes (empty unless Present). Every other match
result returns the placeholder `Response::new(Body::from("Hello"))`,
whose status is hyper's default 200. -/
def match_result_to_hyper_response (parseName parseValue : String → Option String)
    (match_result : MatchResult) : Except MockRequestError HyperResponse :=
  match match_result with
  | MatchResult.RequestMatch interaction =>
      let response := generate_response interaction.response
      match set_hyper_headers parseName parseValue response.headers
          [("access-control-allow-origin", "*")] with
      | Except.error e => Except.error e
      | Except.ok hs =>
          Except.ok { status := response.status, headers := hs,
                      body := match response.body with
                        | OptionalBody.Present s => s
                        | _ => [] }
  | _ => Except.ok { status := 200, headers := [], body := strBytes "Hello" }

/-- `handle_mock_request_error` from `server.rs`: pass a built response
through, and turn each request-processing error into the fixed plaintext
response of its arm. -/
def handle_mock_request_error (result : Except MockRequestError HyperResponse) : HyperResponse :=
  match result with
  | Except.ok response => response
  | Except.error e =>
      match e with
      | MockRequestError.InvalidHeaderEncoding =>
          { status := 400, headers := [], body := strBytes "Found an invalid header encoding" }
      | MockRequestError.RequestBodyError =>
          { status := 500, headers := [], body := strBytes "Could not process request body" }
      | MockRequestError.ResponseBodyError =>
          { status := 500, headers := [], body := strBytes "Could not process response body" }
      | MockRequestError.ResponseHeaderEncodingError =>
          { status := 500, headers := [], body := strBytes "Could not set response header" }

/-- The body bytes the mock server sends for a configured body: the exact
bytes when Present, nothing otherwise (the body match of
`match_result_to_hyper_response`). -/
def configuredBodyBytes : OptionalBody → List Nat
  | OptionalBody.Present s => s
  | _ => []

/-- One name of a `hyper::HeaderMap` with its values, as `extract_headers`
sees it through `keys()` and `get_all(name)`: hyper guarantees at least
one value per listed name, so the first value is a field of its own. A
value is `some s` when `HeaderValue::to_str` succeeds with `s` and `none`
when the value is not valid UTF-8. -/
structure HeaderEntry where
  name : String
  first_value : Option String
  rest_values : List (Option String)
deriving DecidableEq

/-- The closure mapped over the header names in `extract_headers` of
`server.rs`, `collect`ed over `Result`: each entry keeps its first value
only, an invalid first value aborts with `InvalidHeaderEncoding`. -/
def collect_headers : List HeaderEntry → Except MockRequestError (List (String × String))
  | [] => Except.ok []
  | entry :: rest =>
      match entry.first_value with
      | some s =>
          match collect_headers rest with
          | Except.ok m => Except.ok ((entry.name, s) :: m)
          | Except.error e => Except.error e
      | none => Except.error MockRequestError.InvalidHeaderEncoding

/-- `extract_headers` from `server.rs`: an empty header map yields
`none`; otherwise the collected single-valued map, wrapped in `some`. -/
def extract_headers (headers : List HeaderEntry) :
    Except MockRequestError (Option (List (String × String))) :=
  if headers.length > 0 then
    match collect_headers headers with
    | Except.ok m => Except.ok (some m)
    | Except.error e => Except.error e
  else Except.ok none

/-- `PactBrokerError` from `pact_broker.rs`. -/
inductive PactBrokerError where
  | LinkError (message : String)
  | ContentError (message : String)
  | IoError (message : String)
  | NotFound (message : String)
  | UrlError (message : String)
deriving DecidableEq

/-- `fetch_pacts_from_broker` from `pact_broker.rs`. The HAL navigation
to the `pb:latest-provider-pacts` link and, on success, the walk of the
`pacts` links are HTTP effects; both are parameters (`navigate` is the
result of `client.navigate`, `pacts_of` the body of the `Ok` branch).
The transcribed part is the error handling of the `match`: a `NotFound`
navigation error is replaced by the fixed no-pacts message, every other
error is returned unchanged. -/
def fetch_pacts_from_broker {α β : Type}
    (navigate : Except PactBrokerError α)
    (pacts_of : α → Except PactBrokerError β)
    (broker_url provider_name : String) : Except PactBrokerError β :=
  match navigate with
  | Except.ok v => pacts_of v
  | Except.error err =>
      match err with
      | PactBrokerError.NotFound _ =>
          Except.error (PactBrokerError.NotFound
            ("No pacts for provider '" ++ provider_name ++
              "' where found in the pact broker. URL: '" ++ broker_url ++ "'"))
      | _ => Except.error err

/-- The top-level media type of the hyper 0.x `mime` crate, as matched by
`json_content_type` (unlisted types sit in `Ext`). -/
inductive TopLevel where
  | Star
  | Text
  | Application
  | Multipart
  | Message
  | Ext (s : String)
deriving DecidableEq

/-- The sub-level media type of the hyper 0.x `mime` crate: named
subtypes that the crate knows (`json` for `application/json`) and `Ext`
for everything else, `hal+json` and `problem+json` among them. -/
inductive SubLevel where
  | Star
  | Plain
  | Html
  | Xml
  | Json
  | OctetStream
  | Ext (s : String)
deriving DecidableEq

/-- A parsed `Content-Type` value (`Mime(top, sub, params)`). -/
structure Mime where
  top : TopLevel
  sub : SubLevel
  params : List (String × String)
deriving DecidableEq

/-- `json_content_type` from `pact_broker.rs`: the response's
`Content-Type` header (already parsed by hyper, `none` when absent) is
JSON when it is `application/json`, or an extension subtype of
`application` that is exactly the string "hal+json". -/
def json_content_type (content_type : Option Mime) : Bool :=
  match content_type with
  | some mime =>
      match mime.top, mime.sub with
      | TopLevel.Application, SubLevel.Json => true
      | TopLevel.Application, SubLevel.Ext ext => ext == "hal+json"
      | _, _ => false
  | none => false

/-- The classification the claim describes: `application/json` and every
`application/<anything>+json` subtype count as JSON, everything else and
an absent header do not. -/
def json_content_type_claimed (content_type : Option Mime) : Bool :=
  match content_type with
  | some mime =>
      match mime.top, mime.sub with
      | TopLevel.Application, SubLevel.Json => true
      | TopLevel.Application, SubLevel.Ext ext => "+json".data.isSuffixOf ext.data
      | _, _ => false
  | none => false

/-- The classification as amended: only `application/json` and
`application/hal+json` count as JSON, every other content type — other
`+json` subtypes included — and an absent header do not. -/
def json_content_type_amended (content_type : Option Mime) : Bool :=
  match content_type with
  | some mime =>
      decide (mime.top = TopLevel.Application ∧
        (mime.sub = SubLevel.Json ∨ mime.sub = SubLevel.Ext "hal+json"))
  | none => false

/-- A word character of the regex `\w` class over the ASCII keys that
template tokens use: letters, digits and the underscore. -/
def isWordChar (c : Char) : Bool := c.isAlphanum || c == '_'

/-- `HashMap::get` on the template values. -/
def values_get (values : List (String × String)) (key : String) : Option String :=
  (values.find? (fun p => p.1 == key)).map (fun p => p.2)

/-- `Regex::replace_all` of `parse_link_url` with the pattern
`\{(\w+)\}` and its replacement closure, as a left-to-right scan: at an
opening brace followed by one or more word characters and a closing
brace, the whole token is replaced by the mapped value of the key when
the mapping has it and by the token itself (`format!` of the key between
braces) when it does not; everything else is copied unchanged. -/
def expand_template (values : List (String × String)) : List Char → List Char
  | [] => []
  | c :: rest =>
      if c = '{' then
        if hkey : rest.takeWhile isWordChar ≠ [] ∧
            (rest.dropWhile isWordChar).head? = some '}' then
          (match values_get values (String.mk (rest.takeWhile isWordChar)) with
           | some val => val.data
           | none => '{' :: (rest.takeWhile isWordChar ++ ['}'])) ++
            expand_template values (rest.dropWhile isWordChar).tail
        else c :: expand_template values rest
      else c :: expand_template values rest
termination_by l => l.length
decreasing_by
  · have hne : rest.dropWhile isWordChar ≠ [] := by
      intro hnil
      rw [hnil] at hkey
      simp at hkey
    have h1 : (rest.dropWhile isWordChar).tail.length < (rest.dropWhile isWordChar).length := by
      cases hdw : rest.dropWhile isWordChar with
      | nil => exact absurd hdw hne
      | cons a t => simp
    have h2 : (rest.dropWhile isWordChar).length ≤ rest.length :=
      (List.dropWhile_sublist isWordChar).length_le
    simp only [List.length_cons]
    omega
  · simp only [List.length_cons]
    omega
  · simp only [List.length_cons]
    omega

/-- `parse_link_url` from `pact_broker.rs`: expand the templated href
against the mapped values, or fail with a LinkError naming the client
URL and the link when the link has no href. -/
def parse_link_url (url link_name : String) (href : Option String)
    (values : List (String × String)) : Except PactBrokerError String :=
  match href with
  | some href => Except.ok (String.mk (expand_template values href.data))
  | none => Except.error (PactBrokerError.LinkError
      ("Expected a HAL+JSON response from the pact broker, but got a link with no HREF. URL: '"
        ++ url ++ "', LINK: '" ++ link_name ++ "'"))

/-- A templated href, cut into the pieces the claim speaks about: literal
text and tokens written as a key between braces. -/
inductive TemplatePiece where
  | lit (s : String)
  | tok (key : String)
deriving DecidableEq

/-- The href text a piece list denotes. -/
def renderPieces : List TemplatePiece → List Char
  | [] => []
  | TemplatePiece.lit s :: rest => s.data ++ renderPieces rest
  | TemplatePiece.tok k :: rest => '{' :: (k.data ++ '}' :: renderPieces rest)

/-- The expansion the claim describes: literal text is kept, a token
whose key is mapped becomes the mapped value, a token whose key is
absent stays literally in place. -/
def expandPieces (values : List (String × String)) : List TemplatePiece → List Char
  | [] => []
  | TemplatePiece.lit s :: rest => s.data ++ expandPieces values rest
  | TemplatePiece.tok k :: rest =>
      (match values_get values k with
       | some val => val.data
       | none => '{' :: (k.data ++ ['}'])) ++ expandPieces values rest

/-- Well-formed pieces: literal text holds no opening brace and every
token key is a non-empty run of word characters. -/
def wfPieces : List TemplatePiece → Bool
  | [] => true
  | TemplatePiece.lit s :: rest => !s.data.contains '{' && wfPieces rest
  | TemplatePiece.tok k :: rest => !k.data.isEmpty && k.data.all isWordChar && wfPieces rest

/-- A JSON value (`serde_json::Value`), as far as the pattern DSL needs
it. -/
inductive Json where
  | null
  | bool (b : Bool)
  | num (n : Int)
  | str (s : String)
  | arr (items : List Json)
  | obj (fields : List (String × Json))

/-- A rule object: attribute names mapped to string values. -/
abbrev RuleObject : Type := List (String × String)

/-- `Matchers` from `pact_matching::models`: path expressions mapped to
rule objects, as an association list whose observable interface is
lookup. -/
abbrev Matchers : Type := List (String × RuleObject)

/-- `HashMap::insert` on a `Matchers` map: replace the entry under the
path when one exists, add it otherwise. -/
def matchers_insert (rules_out : Matchers) (path : String) (rule : RuleObject) : Matchers :=
  if rules_out.any (fun p => p.1 == path) then
    rules_out.map (fun p => if p.1 == path then (path, rule) else p)
  else rules_out ++ [(path, rule)]

/-- `HashMap::get` on a `Matchers` map. -/
def matchers_lookup (rules : Matchers) (path : String) : Option RuleObject :=
  (rules.find? (fun p => p.1 == path)).map (fun p => p.2)

/-- What the `Pattern` trait exposes of the inner element pattern: its
generated example and its rule extraction (`to_example` and
`extract_matching_rules`). The inner pattern of an `ArrayLike` is an
arbitrary such pattern. -/
structure PatternFns where
  to_example : Json
  extract_matching_rules : String → Matchers → Matchers

/-- `ArrayLike` from `special_rules.rs`. -/
structure ArrayLike where
  example_element : PatternFns
  min_length : Nat

/-- `ArrayLike::new`: minimum length defaults to 1. -/
def ArrayLike.new (example_element : PatternFns) : ArrayLike :=
  { example_element := example_element, min_length := 1 }

/-- `ArrayLike::with_min_length`. -/
def ArrayLike.with_min_length (self : ArrayLike) (min_length : Nat) : ArrayLike :=
  { self with min_length := min_length }

/-- `Pattern::to_example` for `ArrayLike`: the element example repeated
`min_length` times (`repeat(element).take(self.min_length)`). -/
def ArrayLike.to_example (self : ArrayLike) : Json :=
  Json.arr (List.replicate self.min_length self.example_element.to_example)

/-- `Pattern::extract_matching_rules` for `ArrayLike`: insert
`match: type, min: N` at `path` and `match: type` at `path[*].*`, then
recurse into the element pattern with `path[*]`. -/
def ArrayLike.extract_matching_rules (self : ArrayLike) (path : String)
    (rules_out : Matchers) : Matchers :=
  let r1 := matchers_insert rules_out path
    [("match", "type"), ("min", toString self.min_length)]
  let r2 := matchers_insert r1 (path ++ "[*].*") [("match", "type")]
  self.example_element.extract_matching_rules (path ++ "[*]") r2

end Pact

namespace Pact

/-- The head of a stable insertion sort by a natural key is the first
element attaining the minimal key. -/
theorem head_insertionSortBy {α : Type} (key : α → Nat) (l : List α) :
    (insertionSortBy key l).head? = firstMinBy key l := by
  induction l with
  | nil => rfl
  | cons a l ih =>
      simp only [insertionSortBy, firstMinBy]
      cases hs : insertionSortBy key l with
      | nil =>
          rw [hs] at ih
          simp only [List.head?] at ih
          rw [← ih]
          rfl
      | cons b t =>
          have hb : firstMinBy key l = some b := by rw [← ih, hs]; rfl
          rw [hb]
          simp only [orderedInsertBy]
          by_cases h : key a ≤ key b <;> simp [h]

/-- `uniqueList` commutes with mapping an injective function. -/
theorem uniqueList_map_inj {α β : Type} [DecidableEq α] [DecidableEq β]
    (f : α → β) (hf : ∀ x y, f x = f y → x = y) (l : List α) :
    uniqueList (l.map f) = (uniqueList l).map f := by
  have main : ∀ (n : Nat) (l : List α), l.length ≤ n →
      uniqueList (l.map f) = (uniqueList l).map f := by
    intro n
    induction n with
    | zero =>
        intro l hl
        cases l with
        | nil => simp [uniqueList]
        | cons x xs => simp at hl
    | succ n ih =>
        intro l hl
        cases l with
        | nil => simp [uniqueList]
        | cons x xs =>
            simp only [List.map_cons, uniqueList]
            rw [List.filter_map]
            have hfilter : xs.filter ((fun y => decide (y ≠ f x)) ∘ f)
                = xs.filter (fun y => decide (y ≠ x)) := by
              apply List.filter_congr
              intro z _
              simp only [Function.comp]
              by_cases hz : z = x
              · subst hz; simp
              · have hfz : f z ≠ f x := fun hc => hz (hf _ _ hc)
                simp [hz, hfz]
            rw [hfilter, ih (xs.filter (fun y => decide (y ≠ x)))
              (le_trans (List.length_filter_le _ _) (Nat.le_of_succ_le_succ hl))]
  exact main l.length l le_rfl

/-- The string tag of a mismatch is the name of its kind. -/
theorem mismatch_type_eq_kindName (m : Mismatch) :
    m.mismatch_type = m.kind.kindName := by
  cases m <;> rfl

/-- Kind names are distinct. -/
theorem kindName_inj : ∀ x y : MismatchKind, x.kindName = y.kindName → x = y := by
  intro x y
  cases x <;> cases y <;> decide

/-- Counting distinct mismatch-type strings equals counting distinct
variant tags. -/
theorem distinct_kinds_eq (l : List Mismatch) :
    distinct_mismatch_kinds l = (uniqueList (l.map Mismatch.kind)).length := by
  unfold distinct_mismatch_kinds
  have hfun : Mismatch.mismatch_type = (MismatchKind.kindName ∘ Mismatch.kind) :=
    funext fun m => mismatch_type_eq_kindName m
  rw [hfun, ← List.map_map, uniqueList_map_inj MismatchKind.kindName kindName_inj,
    List.length_map]

/-- Per-element agreement of the string test of `method_or_path_mismatch`
with the kind test of the claim. -/
theorem mop_elem (m : Mismatch) :
    ((m.mismatch_type == "MethodMismatch") || (m.mismatch_type == "PathMismatch"))
      = decide (m.kind = MismatchKind.MethodKind ∨ m.kind = MismatchKind.PathKind) := by
  cases m <;> rfl

/-- `method_or_path_mismatch` agrees with the claim's membership test on
variant tags. -/
theorem method_or_path_eq (l : List Mismatch) :
    method_or_path_mismatch l = l.any (fun m =>
      decide (m.kind = MismatchKind.MethodKind ∨ m.kind = MismatchKind.PathKind)) := by
  unfold method_or_path_mismatch
  induction l with
  | nil => rfl
  | cons m l ih =>
      simp only [List.map_cons, List.any_cons]
      rw [ih, mop_elem m]

/-- C1: the dispatcher of `server.rs` behaves exactly as the claim words
it: candidates are ranked by the number of distinct mismatch kinds
ascending with ties broken by declaration order, the top candidate gives
Match when its mismatch list is empty, NotFound when the list holds a
method or path mismatch or there is no interaction, and PartialMismatch
otherwise. -/
theorem match_request_dispatch_spec (match_rq : Request → Request → List Mismatch)
    (req : Request) (interactions : List Interaction) :
    match_request match_rq req interactions = dispatch_claimed match_rq req interactions := by
  have hkey : (fun p : Interaction × List Mismatch =>
      (uniqueList (p.2.map Mismatch.kind)).length)
      = fun p => distinct_mismatch_kinds p.2 :=
    funext fun p => (distinct_kinds_eq p.2).symm
  simp only [match_request, dispatch_claimed]
  rw [hkey, ← head_insertionSortBy]
  cases h : (insertionSortBy (fun p : Interaction × List Mismatch => distinct_mismatch_kinds p.2)
      (interactions.map (fun i => (i, match_rq i.request req)))).head? with
  | none => rfl
  | some res =>
      by_cases he : res.2 = []
      · simp [he]
      · have hne : res.2.isEmpty = false := by
          cases hr : res.2 with
          | nil => exact absurd hr he
          | cons a t => rfl
        simp [hne, he, method_or_path_eq]

/-- C2 (code bug): for a dispatch outcome that is not a match —
`RequestNotFound` here, and also `RequestMismatch` — the code of
`match_result_to_hyper_response` falls into its catch-all arm and returns
the placeholder HTTP 200 response with body "Hello" instead of the
claimed HTTP 500 responses. -/
theorem match_result_not_found_returns_hello :
    match_result_to_hyper_response (fun s => some s) (fun s => some s)
      (MatchResult.RequestNotFound
        { method := "GET", path := "/", query := none, headers := none,
          body := OptionalBody.Empty })
      = Except.ok { status := 200, headers := [], body := strBytes "Hello" } ∧
    match_result_to_hyper_response (fun s => some s) (fun s => some s)
      (MatchResult.RequestMismatch
        { description := "a request", provider_state := none,
          request := { method := "GET", path := "/", query := none, headers := none,
                       body := OptionalBody.Empty },
          response := { status := 200, headers := none, body := OptionalBody.Empty } }
        [Mismatch.HeaderMismatch "accept" "expected header accept with value text/plain"])
      = Except.ok { status := 200, headers := [], body := strBytes "Hello" } :=
  ⟨rfl, rfl⟩

/-- Walking the header loop over entries whose names and values all parse
to themselves and whose names are fresh for the accumulator and pairwise
distinct appends the entries in order. -/
theorem set_headers_loop_append (parseName parseValue : String → Option String) :
    ∀ _hs _acc : List (String × String),
      (∀ kv ∈ _hs, parseName kv.1 = some kv.1 ∧ parseValue kv.2 = some kv.2) →
      (∀ kv ∈ _hs, ∀ p ∈ _acc, p.1 ≠ kv.1) →
      _hs.Pairwise (fun a b => a.1 ≠ b.1) →
      set_headers_loop parseName parseValue _hs _acc = Except.ok (_acc ++ _hs) := by
  intro hs
  induction hs with
  | nil =>
      intro acc _ _ _
      simp [set_headers_loop]
  | cons kv rest ih =>
      intro acc hvalid hdisj hpair
      obtain ⟨k, v⟩ := kv
      have hk : parseName k = some k := (hvalid (k, v) (by simp)).1
      have hv : parseValue v = some v := (hvalid (k, v) (by simp)).2
      simp only [set_headers_loop, hk, hv]
      have hins : insertHeader acc k v = acc ++ [(k, v)] := by
        unfold insertHeader
        have hself : acc.filter (fun p => !(p.1 == k)) = acc := by
          apply List.filter_eq_self.mpr
          intro p hp
          have hne : p.1 ≠ k := hdisj (k, v) (by simp) p hp
          simp [hne]
        rw [hself]
      rw [hins, ih (acc ++ [(k, v)])
        (fun kv2 h2 => hvalid kv2 (List.mem_cons_of_mem _ h2))
        ?_ (List.pairwise_cons.mp hpair).2]
      · simp
      · intro kv2 h2 p hp
        rcases List.mem_append.mp hp with hpacc | hpk
        · exact hdisj kv2 (List.mem_cons_of_mem _ h2) p hpacc
        · have hpkv : p = (k, v) := by simpa using hpk
          subst hpkv
          exact (List.pairwise_cons.mp hpair).1 kv2 h2
/-- C3: a dispatch outcome `RequestMatch interaction` builds the HTTP
response from the interaction's configured response — same status, same
configured headers, the configured body bytes (empty when the body is not
Present) — with the header `access-control-allow-origin: *` added in
front. Header names and values here parse to themselves, do not repeat
and do not collide with the added CORS header. -/
theorem match_result_to_hyper_response_match_spec
    (parseName parseValue : String → Option String) (interaction : Interaction) :
    (interaction.response.headers = none →
      match_result_to_hyper_response parseName parseValue
        (MatchResult.RequestMatch interaction)
        = Except.ok { status := interaction.response.status,
                      headers := [("access-control-allow-origin", "*")],
                      body := configuredBodyBytes interaction.response.body }) ∧
    (∀ hs, interaction.response.headers = some hs →
      (∀ kv ∈ hs, parseName kv.1 = some kv.1 ∧ parseValue kv.2 = some kv.2 ∧
        kv.1 ≠ "access-control-allow-origin") →
      hs.Pairwise (fun a b => a.1 ≠ b.1) →
      match_result_to_hyper_response parseName parseValue
        (MatchResult.RequestMatch interaction)
        = Except.ok { status := interaction.response.status,
                      headers := ("access-control-allow-origin", "*") :: hs,
                      body := configuredBodyBytes interaction.response.body }) := by
  constructor
  · intro hnone
    simp only [match_result_to_hyper_response, generate_response, set_hyper_headers, hnone]
    cases hb : interaction.response.body <;> simp [configuredBodyBytes]
  · intro hs hsome hvalid hpair
    have hloop : set_headers_loop parseName parseValue hs
        [("access-control-allow-origin", "*")]
        = Except.ok ([("access-control-allow-origin", "*")] ++ hs) :=
      set_headers_loop_append parseName parseValue hs _
        (fun kv h => ⟨(hvalid kv h).1, (hvalid kv h).2.1⟩)
        (fun kv h p hp => by
          have hpk : p = ("access-control-allow-origin", "*") := by simpa using hp
          subst hpk
          exact fun hc => (hvalid kv h).2.2 hc.symm)
        hpair
    simp only [match_result_to_hyper_response, generate_response, set_hyper_headers, hsome,
      hloop]
    cases hb : interaction.response.body <;> simp [configuredBodyBytes]

/-- Witness for C3 at a concrete interaction with one configured header
and a Present body. -/
theorem match_result_to_hyper_response_match_witness :
    match_result_to_hyper_response (fun s => some s) (fun s => some s)
      (MatchResult.RequestMatch
        { description := "a request", provider_state := none,
          request := { method := "GET", path := "/", query := none, headers := none,
                       body := OptionalBody.Empty },
          response := { status := 201,
                        headers := some [("content-type", "application/json")],
                        body := OptionalBody.Present [111, 107] } })
      = Except.ok { status := 201,
                    headers := [("access-control-allow-origin", "*"),
                      ("content-type", "application/json")],
                    body := [111, 107] } := by
  have h := (match_result_to_hyper_response_match_spec (fun s => some s) (fun s => some s)
      { description := "a request", provider_state := none,
        request := { method := "GET", path := "/", query := none, headers := none,
                     body := OptionalBody.Empty },
        response := { status := 201,
                      headers := some [("content-type", "application/json")],
                      body := OptionalBody.Present [111, 107] } }).2
    [("content-type", "application/json")] rfl (by decide) (by simp)
  simpa [configuredBodyBytes] using h

/-- C4: the error-to-response mapping of `handle_mock_request_error`
sends an invalid inbound header encoding to HTTP 400 "Found an invalid
header encoding", a request-body read failure to HTTP 500 "Could not
process request body", and an invalid outbound response header to HTTP
500 "Could not set response header". -/
theorem handle_mock_request_error_spec :
    handle_mock_request_error (Except.error MockRequestError.InvalidHeaderEncoding)
      = { status := 400, headers := [], body := strBytes "Found an invalid header encoding" } ∧
    handle_mock_request_error (Except.error MockRequestError.RequestBodyError)
      = { status := 500, headers := [], body := strBytes "Could not process request body" } ∧
    handle_mock_request_error (Except.error MockRequestError.ResponseHeaderEncodingError)
      = { status := 500, headers := [], body := strBytes "Could not set response header" } :=
  ⟨rfl, rfl, rfl⟩

/-- Collecting headers ignores the rest-values of every entry. -/
theorem collect_headers_ignores_rest (f : HeaderEntry → List (Option String)) :
    ∀ headers : List HeaderEntry,
      collect_headers (headers.map (fun e =>
        { name := e.name, first_value := e.first_value, rest_values := f e }))
        = collect_headers headers := by
  intro headers
  induction headers with
  | nil => rfl
  | cons entry rest ih =>
      simp only [List.map_cons, collect_headers]
      rw [ih]

/-- Collecting headers whose first values are all valid yields the
name/first-value pairs in order. -/
theorem collect_headers_valid :
    ∀ headers : List HeaderEntry, (∀ e ∈ headers, e.first_value ≠ none) →
      collect_headers headers
        = Except.ok (headers.map (fun e => (e.name, e.first_value.getD ""))) := by
  intro headers
  induction headers with
  | nil => intro _; rfl
  | cons entry rest ih =>
      intro hval
      cases hfv : entry.first_value with
      | none => exact absurd hfv (hval entry (by simp))
      | some s =>
          simp only [collect_headers, hfv,
            ih (fun e he => hval e (List.mem_cons_of_mem _ he)), List.map_cons]
          simp [hfv]

/-- C9: header extraction stores one value per header name — the first —
and an empty header map yields `none` rather than an empty map. The
middle conjunct states that the values beyond the first never influence
the result. -/
theorem extract_headers_spec (headers : List HeaderEntry) :
    (headers = [] → extract_headers headers = Except.ok none) ∧
    (∀ f : HeaderEntry → List (Option String),
      extract_headers (headers.map (fun e =>
        { name := e.name, first_value := e.first_value, rest_values := f e }))
        = extract_headers headers) ∧
    ((∀ e ∈ headers, e.first_value ≠ none) → headers ≠ [] →
      extract_headers headers
        = Except.ok (some (headers.map (fun e => (e.name, e.first_value.getD ""))))) := by
  refine ⟨fun h => by subst h; rfl, fun f => ?_, fun hval hne => ?_⟩
  · unfold extract_headers
    rw [collect_headers_ignores_rest, List.length_map]
  · unfold extract_headers
    cases headers with
    | nil => exact absurd rfl hne
    | cons entry rest =>
        rw [collect_headers_valid _ hval]
        simp

/-- Witness for C9: a header carrying two values keeps only the first,
and the empty header map yields none. -/
theorem extract_headers_witness :
    extract_headers [{ name := "accept", first_value := some "text/html",
                       rest_values := [some "text/plain"] }]
      = Except.ok (some [("accept", "text/html")]) ∧
    extract_headers [] = Except.ok none := by
  constructor
  · have h := (extract_headers_spec
      [{ name := "accept", first_value := some "text/html",
         rest_values := [some "text/plain"] }]).2.2
      (by intro e he; simp at he; subst he; simp) (by simp)
    simpa using h
  · exact (extract_headers_spec []).1 rfl

/-- C5: a NotFound error out of the HAL navigation to the
latest-provider-pacts link is replaced by the fixed no-pacts message with
the provider name and broker URL interpolated; every other navigation
error is returned unchanged. -/
theorem fetch_pacts_from_broker_spec {α β : Type}
    (pacts_of : α → Except PactBrokerError β) (broker_url provider_name : String) :
    (∀ s, fetch_pacts_from_broker (Except.error (PactBrokerError.NotFound s))
        pacts_of broker_url provider_name
      = Except.error (PactBrokerError.NotFound
          ("No pacts for provider '" ++ provider_name ++
            "' where found in the pact broker. URL: '" ++ broker_url ++ "'"))) ∧
    (∀ e : PactBrokerError, (∀ s, e ≠ PactBrokerError.NotFound s) →
      fetch_pacts_from_broker (Except.error e) pacts_of broker_url provider_name
        = Except.error e) := by
  constructor
  · intro s
    rfl
  · intro e he
    cases e with
    | LinkError s => rfl
    | ContentError s => rfl
    | IoError s => rfl
    | NotFound s => exact absurd rfl (he s)
    | UrlError s => rfl

/-- Witness for C5 at a concrete 404 navigation failure and a concrete
IoError. -/
theorem fetch_pacts_from_broker_witness :
    fetch_pacts_from_broker
      (Except.error (PactBrokerError.NotFound
        "Request to pact broker path '/pacts/provider/sad_provider/latest' failed: 404 Not Found. URL: 'http://broker'"))
      (fun _ : Unit => Except.ok ([] : List Nat)) "http://broker" "sad_provider"
      = Except.error (PactBrokerError.NotFound
          ("No pacts for provider '" ++ "sad_provider" ++
            "' where found in the pact broker. URL: '" ++ "http://broker" ++ "'")) ∧
    fetch_pacts_from_broker (Except.error (PactBrokerError.IoError "boom"))
      (fun _ : Unit => Except.ok ([] : List Nat)) "http://broker" "sad_provider"
      = Except.error (PactBrokerError.IoError "boom") := by
  constructor
  · exact (fetch_pacts_from_broker_spec (fun _ : Unit => Except.ok ([] : List Nat))
      "http://broker" "sad_provider").1 _
  · exact (fetch_pacts_from_broker_spec (fun _ : Unit => Except.ok ([] : List Nat))
      "http://broker" "sad_provider").2 (PactBrokerError.IoError "boom")
      (fun _ hc => PactBrokerError.noConfusion hc)

/-- C6 counterexample: `application/problem+json` is an
`application/<anything>+json` subtype, yet `json_content_type` classifies
it as not JSON, so the code does not implement the claimed
classification. -/
theorem json_content_type_counterexample :
    ¬ (∀ h : Option Mime, json_content_type h = json_content_type_claimed h) := by
  intro hall
  have hx := hall (some { top := TopLevel.Application,
                          sub := SubLevel.Ext "problem+json", params := [] })
  revert hx
  decide

/-- C6 as amended: the content-type classification treats exactly
`application/json` and `application/hal+json` as JSON; every other
content type — other `application/<anything>+json` subtypes included —
and an absent Content-Type header are classified as not JSON. -/
theorem json_content_type_amended_spec :
    ∀ h : Option Mime, json_content_type h = json_content_type_amended h := by
  intro h
  cases h with
  | none => rfl
  | some mime =>
      obtain ⟨top, sub, params⟩ := mime
      cases top <;> cases sub <;>
        simp only [json_content_type, json_content_type_amended] <;>
        first
        | rfl
        | (rename_i ext
           by_cases hs : ext = "hal+json" <;> simp [hs])

/-- Characters that satisfy the scanned predicate are copied unchanged by
the template expansion. -/
theorem expand_template_lit (values : List (String × String)) :
    ∀ l rest : List Char, (∀ c ∈ l, ¬ c = '{') →
      expand_template values (l ++ rest) = l ++ expand_template values rest := by
  intro l
  induction l with
  | nil => intro rest _; simp
  | cons c t ih =>
      intro rest hno
      have hc : ¬ c = '{' := hno c (by simp)
      rw [List.cons_append, expand_template]
      simp only [if_neg hc]
      rw [ih rest (fun d hd => hno d (List.mem_cons_of_mem _ hd))]
      simp

/-- takeWhile and dropWhile on a run of satisfied characters followed by
an unsatisfied one cut exactly at the boundary. -/
theorem takeWhile_dropWhile_boundary (p : Char → Bool) :
    ∀ (k : List Char) (x : Char) (r : List Char), (∀ c ∈ k, p c = true) → p x = false →
      (k ++ x :: r).takeWhile p = k ∧ (k ++ x :: r).dropWhile p = x :: r := by
  intro k
  induction k with
  | nil =>
      intro x r _ hx
      constructor <;> simp [List.takeWhile_cons, List.dropWhile_cons, hx]
  | cons c t ih =>
      intro x r hall hx
      have hc : p c = true := hall c (by simp)
      have hrec := ih x r (fun d hd => hall d (List.mem_cons_of_mem _ hd)) hx
      constructor <;>
        simp [List.takeWhile_cons, List.dropWhile_cons, hc, hrec.1, hrec.2]

/-- A well-formed token at the scan position is replaced: by the mapped
value when the key is mapped, by itself when it is not. -/
theorem expand_template_tok (values : List (String × String)) (k rest : List Char)
    (hne : k ≠ []) (hw : ∀ c ∈ k, isWordChar c = true) :
    expand_template values ('{' :: (k ++ '}' :: rest))
      = (match values_get values (String.mk k) with
         | some val => val.data
         | none => '{' :: (k ++ ['}'])) ++ expand_template values rest := by
  have hb : isWordChar '}' = false := by decide
  have h1 := (takeWhile_dropWhile_boundary isWordChar k '}' rest hw hb).1
  have h2 := (takeWhile_dropWhile_boundary isWordChar k '}' rest hw hb).2
  rw [expand_template]
  simp only [if_pos rfl, h1, h2]
  rw [dif_pos ⟨hne, rfl⟩]
  rfl

/-- C7: URI-template expansion of a templated link href replaces each
token whose key is mapped by the mapped value and leaves each token
whose key is unmapped literally unchanged; literal text is copied. The
href is given as its sequence of literal and token pieces. -/
theorem parse_link_url_spec (url link_name : String) (values : List (String × String))
    (pieces : List TemplatePiece) (hwf : wfPieces pieces = true) :
    parse_link_url url link_name (some (String.mk (renderPieces pieces))) values
      = Except.ok (String.mk (expandPieces values pieces)) := by
  have key : ∀ ps : List TemplatePiece, wfPieces ps = true →
      expand_template values (renderPieces ps) = expandPieces values ps := by
    intro ps
    induction ps with
    | nil =>
        intro _
        simp [renderPieces, expandPieces, expand_template]
    | cons p rest ih =>
        intro hps
        cases p with
        | lit s =>
            have hparts : (!s.data.contains '{') = true ∧ wfPieces rest = true := by
              simpa [wfPieces, Bool.and_eq_true] using hps
            have hnob : ∀ c ∈ s.data, ¬ c = '{' := by
              intro c hc heq
              subst heq
              have hcon : s.data.contains '{' = true := by simpa using hc
              rw [hcon] at hparts
              exact absurd hparts.1 (by simp)
            simp only [renderPieces, expandPieces]
            rw [expand_template_lit values s.data _ hnob, ih hparts.2]
        | tok k =>
            have hparts : ((!k.data.isEmpty) = true ∧ k.data.all isWordChar = true) ∧
                wfPieces rest = true := by
              simpa [wfPieces, Bool.and_eq_true] using hps
            have hne : k.data ≠ [] := by
              simpa [List.isEmpty_iff] using hparts.1.1
            have hw : ∀ c ∈ k.data, isWordChar c = true := by
              simpa [List.all_eq_true] using hparts.1.2
            simp only [renderPieces, expandPieces]
            rw [expand_template_tok values k.data (renderPieces rest) hne hw, ih hparts.2]
  simp only [parse_link_url]
  rw [key pieces hwf]

/-- Witness for C7: `http://{valA}/{valC}` against the mapping
valA := A, valB := B expands valA and leaves the unmapped valC token
literal. -/
theorem parse_link_url_witness :
    parse_link_url "" "link"
      (some (String.mk (renderPieces
        [TemplatePiece.lit "http://", TemplatePiece.tok "valA",
         TemplatePiece.lit "/", TemplatePiece.tok "valC"])))
      [("valA", "A"), ("valB", "B")]
      = Except.ok (String.mk (expandPieces [("valA", "A"), ("valB", "B")]
        [TemplatePiece.lit "http://", TemplatePiece.tok "valA",
         TemplatePiece.lit "/", TemplatePiece.tok "valC"])) :=
  parse_link_url_spec "" "link" [("valA", "A"), ("valB", "B")]
    [TemplatePiece.lit "http://", TemplatePiece.tok "valA",
     TemplatePiece.lit "/", TemplatePiece.tok "valC"] (by decide)

/-- Looking a key up in a cons cell of a matcher map. -/
theorem matchers_lookup_cons (p : String × RuleObject) (t : Matchers) (k : String) :
    matchers_lookup (p :: t) k = if p.1 == k then some p.2 else matchers_lookup t k := by
  by_cases hp : (p.1 == k) = true <;>
    simp [matchers_lookup, List.find?_cons, hp]

/-- Inserting a rule makes it the one found under its path. -/
theorem matchers_lookup_insert (m : Matchers) (path : String) (rule : RuleObject) :
    matchers_lookup (matchers_insert m path rule) path = some rule := by
  have hA : ∀ m2 : Matchers, m2.any (fun p => p.1 == path) = true →
      matchers_lookup (m2.map (fun p => if p.1 == path then (path, rule) else p)) path
        = some rule := by
    intro m2
    induction m2 with
    | nil => intro h; simp at h
    | cons p t ih =>
        intro h
        by_cases hp : (p.1 == path) = true
        · simp only [List.map_cons, if_pos hp]
          simp [matchers_lookup_cons]
        · have ht : t.any (fun p => p.1 == path) = true := by
            rw [List.any_cons] at h
            simpa [hp] using h
          simp only [List.map_cons, if_neg hp]
          rw [matchers_lookup_cons]
          simp only [if_neg hp]
          exact ih ht
  have hB : ∀ m2 : Matchers, m2.any (fun p => p.1 == path) = false →
      matchers_lookup (m2 ++ [(path, rule)]) path = some rule := by
    intro m2
    induction m2 with
    | nil => intro _; simp [matchers_lookup_cons]
    | cons p t ih =>
        intro h
        rw [List.any_cons, Bool.or_eq_false_iff] at h
        rw [List.cons_append, matchers_lookup_cons]
        simp only [h.1, if_false]
        exact ih h.2
  unfold matchers_insert
  by_cases hany : m.any (fun p => p.1 == path) = true
  · rw [if_pos hany]
    exact hA m hany
  · rw [if_neg hany]
    refine hB m ?_
    cases hc : m.any (fun p => p.1 == path) with
    | true => exact absurd hc hany
    | false => rfl

/-- Inserting a rule leaves every other path's lookup unchanged. -/
theorem matchers_lookup_insert_ne (m : Matchers) (path k : String) (rule : RuleObject)
    (hk : k ≠ path) :
    matchers_lookup (matchers_insert m path rule) k = matchers_lookup m k := by
  have hbk : (path == k) = false := by
    cases hc : (path == k) with
    | true => exact absurd (beq_iff_eq.mp hc).symm hk
    | false => rfl
  have hmap : ∀ t : Matchers,
      matchers_lookup (t.map (fun p => if p.1 == path then (path, rule) else p)) k
        = matchers_lookup t k := by
    intro t
    induction t with
    | nil => rfl
    | cons p t ih =>
        simp only [List.map_cons]
        by_cases hp : (p.1 == path) = true
        · have hp1 : p.1 = path := beq_iff_eq.mp hp
          rw [if_pos hp, matchers_lookup_cons, matchers_lookup_cons]
          have hpk : (p.1 == k) = false := by rw [hp1]; exact hbk
          simp only [hbk, hpk, if_false]
          exact ih
        · rw [if_neg hp, matchers_lookup_cons, matchers_lookup_cons]
          by_cases hpk : (p.1 == k) = true
          · simp only [hpk, if_true]
          · simp only [if_neg hpk]
            exact ih
  have happend : ∀ t : Matchers,
      matchers_lookup (t ++ [(path, rule)]) k = matchers_lookup t k := by
    intro t
    induction t with
    | nil =>
        simp only [List.nil_append, matchers_lookup_cons, hbk, if_false]
        rfl
    | cons p t ih =>
        rw [List.cons_append, matchers_lookup_cons, matchers_lookup_cons]
        by_cases hpk : (p.1 == k) = true
        · simp only [hpk, if_true]
        · simp only [if_neg hpk]
          exact ih
  unfold matchers_insert
  by_cases hany : m.any (fun p => p.1 == path) = true
  · rw [if_pos hany]
    exact hmap m
  · rw [if_neg hany]
    exact happend m

/-- C8: the array-like pattern's generated example is a JSON array of
the element example repeated min-length times, and its rule extraction
hands the inner pattern, at selector `path[*]`, a map that holds
`match: type, min: N` at `path`, `match: type` at `path[*].*`, and the
caller's rules unchanged everywhere else. -/
theorem array_like_spec (inner : PatternFns) (n : Nat) (path : String)
    (rules_out : Matchers) :
    (∃ l, ((ArrayLike.new inner).with_min_length n).to_example = Json.arr l ∧
      l.length = n ∧ ∀ x ∈ l, x = inner.to_example) ∧
    (∃ m, ((ArrayLike.new inner).with_min_length n).extract_matching_rules path rules_out
        = inner.extract_matching_rules (path ++ "[*]") m ∧
      matchers_lookup m path = some [("match", "type"), ("min", toString n)] ∧
      matchers_lookup m (path ++ "[*].*") = some [("match", "type")] ∧
      ∀ k, k ≠ path → k ≠ path ++ "[*].*" →
        matchers_lookup m k = matchers_lookup rules_out k) := by
  have hpne : path ≠ path ++ "[*].*" := by
    intro hcontra
    have hlen := congrArg String.length hcontra
    rw [String.length_append] at hlen
    have h5 : ("[*].*" : String).length = 5 := rfl
    rw [h5] at hlen
    omega
  constructor
  · refine ⟨List.replicate n inner.to_example, rfl, List.length_replicate n _, ?_⟩
    intro x hx
    exact List.eq_of_mem_replicate hx
  · refine ⟨matchers_insert
      (matchers_insert rules_out path [("match", "type"), ("min", toString n)])
      (path ++ "[*].*") [("match", "type")], rfl, ?_, ?_, ?_⟩
    · rw [matchers_lookup_insert_ne _ _ _ _ hpne]
      exact matchers_lookup_insert _ _ _
    · exact matchers_lookup_insert _ _ _
    · intro k hk1 hk2
      rw [matchers_lookup_insert_ne _ _ _ _ hk2, matchers_lookup_insert_ne _ _ _ _ hk1]

/-- Witness for C8 at min-length 2 over a literal inner pattern (example
"hello", no rules emitted), extracting at the root selector over a map
already holding an unrelated rule. -/
theorem array_like_witness :
    matchers_lookup
      (((ArrayLike.new
          { to_example := Json.str "hello",
            extract_matching_rules := fun _ r => r }).with_min_length 2).extract_matching_rules
        "$" [("zzz", [("match", "regex")])]) "zzz"
      = some [("match", "regex")] ∧
    ((ArrayLike.new
        { to_example := Json.str "hello",
          extract_matching_rules := fun _ r => r }).with_min_length 2).to_example
      = Json.arr [Json.str "hello", Json.str "hello"] := by
  constructor
  · obtain ⟨m, hm, hlook1, hlook2, hframe⟩ :=
      (array_like_spec
        { to_example := Json.str "hello",
          extract_matching_rules := fun _ r => r } 2 "$" [("zzz", [("match", "regex")])]).2
    rw [hm]
    have hz := hframe "zzz" (by decide) (by decide)
    calc matchers_lookup m "zzz"
        = matchers_lookup [("zzz", [("match", "regex")])] "zzz" := hz
      _ = some [("match", "regex")] := rfl
  · rfl

/-- C10: the body built by the mock server from a received chunk is never
Missing and never Null; the empty chunk becomes Empty and a non-empty
chunk becomes Present with exactly the received bytes. -/
theorem extract_body_spec :
    (∀ chunk : List Nat, extract_body chunk ≠ OptionalBody.Missing ∧
      extract_body chunk ≠ OptionalBody.Null) ∧
    extract_body [] = OptionalBody.Empty ∧
    (∀ (b : Nat) (bs : List Nat), extract_body (b :: bs) = OptionalBody.Present (b :: bs)) := by
  refine ⟨fun chunk => ?_, rfl, fun b bs => ?_⟩
  · unfold extract_body
    by_cases h : chunk.length > 0 <;> simp [h]
  · simp [extract_body]

end Pact
